import Mathlib

/-!
# Reddit control-panel handlers (`reddit/plugin_web.go`)

A shallow embedding of the request handlers `baseData`, `HandleNew`,
`HandleModify` and `HandleRemove`, and the properties of the watch-item list
they maintain.

Conventions of the embedding

* A Go `string` is a Lean `String` (a sequence of runes).
* Go's `int` is the 64-bit two's-complement integer: values are `Int`s and the
  one arithmetic operation of the file (`highest + 1`) wraps with `wrapInt`.
* `currentConfig` is a slice of pointers to items produced by the store client;
  the pointers are distinct, so a pointer is represented by the position of the
  item in the list and a write through a pointer by `List.set` at that position.
* The store client is an oracle: each call returns `none` (success) or
  `some err`; every handler records the calls it issues, in order.
* A handler's result is the part of `templateData` it fills in (`RedditConfig`,
  the alerts) together with the store calls and audit-log entries it issued.
-/

namespace Reddit

/-! ## Standard-library functions used by the handlers -/

/-- Rune classifier `unicode.IsSpace`: the Latin-1 spaces
`\t \n \v \f \r`, space, U+0085, U+00A0 and the other code points with the
White_Space property. -/
def isSpace (c : Char) : Bool :=
  let n := c.toNat
  (9 ≤ n && n ≤ 13) || n == 0x20 || n == 0x85 || n == 0xA0 || n == 0x1680 ||
  (0x2000 ≤ n && n ≤ 0x200A) || n == 0x2028 || n == 0x2029 || n == 0x202F ||
  n == 0x205F || n == 0x3000

/-- Function `strings.TrimSpace` on the runes of a string: all leading and all
trailing white space removed. -/
def trimRunes (l : List Char) : List Char :=
  ((l.dropWhile isSpace).reverse.dropWhile isSpace).reverse

/-- Function `strings.TrimSpace`. -/
def TrimSpace (s : String) : String := ⟨trimRunes s.data⟩

/-- The Unicode case tables of the Go runtime, outside ASCII.  `lower` is
`unicode.ToLower` on a rune; `folds a b` tells whether `b` lies on the
`unicode.SimpleFold` orbit of `a`.  Both are consulted only when a rune outside
ASCII is involved; on ASCII the functions below are explicit. -/
structure CaseTables where
  lower : Char → Char
  folds : Char → Char → Bool

/-- Function `unicode.ToLower` on one rune. -/
def lowerRune (u : CaseTables) (c : Char) : Char :=
  if c.toNat < 0x80 then
    (if 65 ≤ c.toNat ∧ c.toNat ≤ 90 then Char.ofNat (c.toNat + 32) else c)
  else u.lower c

/-- Function `strings.ToLower`: `unicode.ToLower` mapped over the runes. -/
def ToLower (u : CaseTables) (s : String) : String := ⟨s.data.map (lowerRune u)⟩

/-- One step of `strings.EqualFold`: the runes are equal, or, ordered as
`sr < tr`, either both are ASCII with `sr` upper case and `tr` its lower case,
or `tr` is not ASCII and is reached from `sr` by simple folding. -/
def foldRune (u : CaseTables) (a b : Char) : Bool :=
  if a = b then true
  else
    let sr := if b.toNat < a.toNat then b else a
    let tr := if b.toNat < a.toNat then a else b
    if tr.toNat < 0x80 then
      decide (65 ≤ sr.toNat ∧ sr.toNat ≤ 90 ∧ tr.toNat = sr.toNat + 32)
    else u.folds sr tr

/-- Loop of `strings.EqualFold` over the runes of both strings. -/
def equalFoldRunes (u : CaseTables) : List Char → List Char → Bool
  | [], [] => true
  | a :: s, b :: t => foldRune u a b && equalFoldRunes u s t
  | _, _ => false

/-- Function `strings.EqualFold`. -/
def EqualFold (u : CaseTables) (s t : String) : Bool := equalFoldRunes u s.data t.data

/-- Case tables that leave every rune outside ASCII alone; used to evaluate
the handlers on ASCII inputs, where the tables are not consulted. -/
def asciiTables : CaseTables := ⟨fun c => c, fun _ _ => false⟩

/-- Error of `strconv.ParseInt`: `invalid` is `ErrSyntax`, `outOfRange` is
`ErrRange`. -/
inductive NumError where
  | invalid
  | outOfRange
deriving DecidableEq, Repr

/-- Value of a decimal digit. -/
def digitVal (c : Char) : Option Nat :=
  if 48 ≤ c.toNat ∧ c.toNat ≤ 57 then some (c.toNat - 48) else none

/-- Digit loop of `strconv.ParseUint(s, 10, 32)` from the accumulator `n`,
returning the value and the error. Each character is first checked to be a
decimal digit (`ErrSyntax` with value 0 otherwise); then the 64-bit product
and sum are checked, the sum also against `maxVal = 1<<32 - 1`, and the loop
stops there with `ErrRange` and the value `maxUint64`, without reading the
rest of the input. -/
def parseUintLoop : Nat → List Char → Nat × Option NumError
  | n, [] => (n, none)
  | n, c :: cs =>
    match digitVal c with
    | none => (0, some .invalid)
    | some v =>
      if n ≥ (2 ^ 64 - 1) / 10 + 1 then (2 ^ 64 - 1, some .outOfRange)
      else
        let n10 := (n * 10) % 2 ^ 64
        let n1 := (n10 + v) % 2 ^ 64
        if n1 < n10 ∨ n1 > 2 ^ 32 - 1 then (2 ^ 64 - 1, some .outOfRange)
        else parseUintLoop n1 cs

/-- Call `strconv.ParseUint(s, 10, 32)`: the empty input is `ErrSyntax`. -/
def ParseUint32 (ds : List Char) : Nat × Option NumError :=
  match ds with
  | [] => (0, some .invalid)
  | _ :: _ => parseUintLoop 0 ds

/-- Call `strconv.ParseInt(s, 10, 32)`: the empty input is `ErrSyntax`; a
leading sign is picked off; an error of `ParseUint` other than `ErrRange` is
returned as it is; then the unsigned value is checked against
`cutoff = 1 << 31`. -/
def ParseInt32 (s : String) : Except NumError Int :=
  match s.data with
  | [] => .error .invalid
  | c :: cs =>
    let neg : Bool := c = '-'
    let rest := if c = '+' ∨ c = '-' then cs else c :: cs
    let (un, err) := ParseUint32 rest
    if err = some .invalid then .error .invalid
    else if !neg && un ≥ 2 ^ 31 then .error .outOfRange
    else if neg && un > 2 ^ 31 then .error .outOfRange
    else .ok (if neg then -(un : Int) else (un : Int))

/-- Largest value of Go's `int`. -/
def maxInt : Int := 2 ^ 63 - 1

/-- Smallest value of Go's `int`. -/
def minInt : Int := -(2 ^ 63)

/-- Result of an `int` operation whose mathematical value is `x`: reduced
modulo `2 ^ 64` into the signed range. -/
def wrapInt (x : Int) : Int := (x + 2 ^ 63) % 2 ^ 64 - 2 ^ 63

/-! ## Data model -/

/-- Error value returned by the store client. -/
abbrev Error := String

/-- Modelled from the spec: the record `SubredditWatchItem` is declared outside
this file; its fields are the four the handlers read and write (spec §3). -/
structure SubredditWatchItem where
  Sub : String
  Guild : String
  Channel : String
  ID : Int
deriving DecidableEq, Repr, Inhabited

/-- The decoded form `Form`. -/
structure Form where
  Subreddit : String
  Channel : String
  ID : Int
deriving DecidableEq, Repr, Inhabited

/-- Modelled from the spec: the store client (spec §6) with its three
operations `GetConfig`, `item.Set` and `item.Remove`, each giving success
(`none`) or an error. `GetConfig` also returns the list it decoded. -/
structure Client where
  GetConfig : String → List SubredditWatchItem × Option Error
  Set : SubredditWatchItem → Option Error
  Remove : SubredditWatchItem → Option Error

/-- A call issued to the store client. -/
inductive StoreOp where
  | set (item : SubredditWatchItem)
  | remove (item : SubredditWatchItem)
deriving DecidableEq, Repr

/-- Style of an alert. -/
inductive AlertStyle where
  | danger
  | success
deriving DecidableEq, Repr

/-- An argument of an alert constructor: a string, or the error value of
`strconv.ParseInt` together with the input it was raised on. -/
inductive AlertArg where
  | text (s : String)
  | parseErr (input : String) (err : NumError)
deriving DecidableEq, Repr

/-- An alert added to the template data: its style and the arguments the
message is printed from. -/
structure Alert where
  style : AlertStyle
  args : List AlertArg
deriving DecidableEq, Repr

/-- Constructor `web.ErrorAlert`. -/
def ErrorAlert (args : List AlertArg) : Alert := ⟨.danger, args⟩

/-- Constructor `web.SucessAlert`. -/
def SucessAlert (args : List AlertArg) : Alert := ⟨.success, args⟩

/-- Modelled from the spec: `web.CheckErr` is declared outside this file. When
`err` is set it adds an error alert carrying the given message and reports
`true`; otherwise it adds nothing and reports `false` (spec §4, §7). -/
def CheckErr (alerts : List Alert) (err : Option Error) (errMsg : String) :
    List Alert × Bool :=
  match err with
  | none => (alerts, false)
  | some _ => (alerts ++ [ErrorAlert [.text errMsg]], true)

/-- Modelled from the spec: `FindWatchItem` is declared outside this file. It
looks an item up by ID in the list (spec §4.4, §4.5) and returns a pointer to
it, here the position of the first item with that ID and the item there, or
`nil` when no item has the ID. -/
def FindWatchItem : List SubredditWatchItem → Int → Option (Nat × SubredditWatchItem)
  | [], _ => none
  | c :: rest, id =>
    if c.ID = id then some (0, c)
    else (FindWatchItem rest id).map (fun p => (p.1 + 1, p.2))

/-- What a handler receives: the base context data (`client`, `activeGuild`),
the list stored under `CurrentConfig`, the parsed form and its validity flag,
the raw form value `r.FormValue("subreddit")` and the route parameter
`pat.Param(ctx, "item")`. -/
structure Ctx where
  client : Client
  activeGuild : String
  currentConfig : List SubredditWatchItem
  form : Form
  formOk : Bool
  formSubreddit : String
  itemParam : String

/-- What a handler produces: `templateData["RedditConfig"]`, the alerts it
added, the store calls it issued and the audit-log entries it sent. -/
structure Response where
  RedditConfig : List SubredditWatchItem
  alerts : List Alert
  storeOps : List StoreOp
  cpLog : List String
deriving DecidableEq, Repr

/-! ## `baseData` -/

/-- What the middleware does to the outside: it writes a rendered template to
the response, and it calls the inner handler with the list it stored in the
context. -/
inductive Effect where
  | render (template : String) (alerts : List Alert)
  | serveInner (currentConfig : List SubredditWatchItem)
deriving DecidableEq, Repr

/-- Middleware `baseData`: fetch the list; when `CheckErr` reports a failure
render `cp_reddit` with the alert; then, in either case, call the inner
handler with the fetched list in the context. -/
def baseData (client : Client) (activeGuild : String) : List Effect :=
  let (currentConfig, err) := client.GetConfig ("guild_subreddit_watch:" ++ activeGuild)
  let (alerts, failed) :=
    CheckErr [] err "Failed retrieving config, message support in the yagpdb server"
  (if failed then [Effect.render "cp_reddit" alerts] else []) ++
    [Effect.serveInner currentConfig]

/-! ## `HandleNew` -/

/-- The loop of `HandleNew` that looks for the highest ID, starting from 0. -/
def highestID (currentConfig : List SubredditWatchItem) : Int :=
  currentConfig.foldl (fun highest v => if v.ID > highest then v.ID else highest) 0

/-- The item `HandleNew` builds from the form. -/
def newWatchItem (ctx : Ctx) : SubredditWatchItem :=
  { Sub := TrimSpace ctx.form.Subreddit
    Channel := ctx.form.Channel
    Guild := ctx.activeGuild
    ID := wrapInt (highestID ctx.currentConfig + 1) }

/-- Handler `HandleNew`. -/
def HandleNew (ctx : Ctx) : Response :=
  let currentConfig := ctx.currentConfig
  if !ctx.formOk then
    { RedditConfig := currentConfig, alerts := [], storeOps := [], cpLog := [] }
  else if currentConfig.length > 24 then
    { RedditConfig := currentConfig, alerts := [ErrorAlert [.text "Max 25 items allowed"]],
      storeOps := [], cpLog := [] }
  else
    let watchItem := newWatchItem ctx
    let err := ctx.client.Set watchItem
    let (alerts, failed) := CheckErr [] err "Failed saving item :'("
    if failed then
      { RedditConfig := currentConfig, alerts := alerts,
        storeOps := [StoreOp.set watchItem], cpLog := [] }
    else
      { RedditConfig := currentConfig ++ [watchItem]
        alerts := alerts ++
          [SucessAlert [.text ("Sucessfully added subreddit feed for /r/" ++ watchItem.Sub)]]
        storeOps := [StoreOp.set watchItem]
        cpLog := ["Added reddit feed from /r/" ++ ctx.form.Subreddit] }

/-! ## `HandleModify` -/

/-- Handler `HandleModify`. The channel is written through the pointer before
any store call; the subreddit only after a successful removal. -/
def HandleModify (u : CaseTables) (ctx : Ctx) : Response :=
  let currentConfig := ctx.currentConfig
  if !ctx.formOk then
    { RedditConfig := currentConfig, alerts := [], storeOps := [], cpLog := [] }
  else
    let updatedSubreddit := TrimSpace ctx.form.Subreddit
    match FindWatchItem currentConfig ctx.form.ID with
    | none =>
      { RedditConfig := currentConfig, alerts := [ErrorAlert [.text "Unknown id"]],
        storeOps := [], cpLog := [] }
    | some (k, item) =>
      let subIsNew := !EqualFold u updatedSubreddit item.Sub
      let item1 := { item with Channel := ctx.form.Channel }
      let (final, err, ops) :=
        if !subIsNew then
          (item1, ctx.client.Set item1, [StoreOp.set item1])
        else
          match ctx.client.Remove item1 with
          | some e => (item1, some e, [StoreOp.remove item1])
          | none =>
            let item2 := { item1 with Sub := ToLower u ctx.formSubreddit }
            (item2, ctx.client.Set item2, [StoreOp.remove item1, StoreOp.set item2])
      let shown := currentConfig.set k final
      let (alerts, failed) := CheckErr [] err "Failed saving item :'("
      if failed then
        { RedditConfig := shown, alerts := alerts, storeOps := ops, cpLog := [] }
      else
        { RedditConfig := shown
          alerts := alerts ++ [SucessAlert [.text "Sucessfully updated reddit feed! :D"]]
          storeOps := ops
          cpLog := ["Modified a feed to /r/" ++ ctx.formSubreddit] }

/-! ## `HandleRemove` -/

/-- The slice variable `currentConfig` during the removal loop: the cells of
the backing array that the original slice covers, and the current length. The
slice always starts at cell 0 and its capacity covers all the cells. -/
structure Slice where
  cells : List SubredditWatchItem
  len : Nat
deriving DecidableEq, Repr

/-- Items seen through the slice. -/
def Slice.items (s : Slice) : List SubredditWatchItem := s.cells.take s.len

/-- Body of the removal loop at index `k`. The range clause reads cell `k` of
the array it started on. On a match, `currentConfig[:k]` is within capacity,
`currentConfig[k+1:]` needs `k + 1 ≤ len` and is a run-time panic (`none`)
otherwise; `append` then copies the cells `k+1 .. len-1` down by one inside the
same array and the slice is one shorter. -/
def removeStep (id : Int) (s : Slice) (k : Nat) : Option Slice :=
  match s.cells.get? k with
  | none => some s
  | some c =>
    if c.ID = id then
      if k + 1 ≤ s.len then
        some { cells := s.cells.take k ++ (s.cells.drop (k + 1)).take (s.len - (k + 1)) ++
                          s.cells.drop (s.len - 1)
               len := s.len - 1 }
      else none
    else some s

/-- The removal loop: `k` ranges over the indices of the original slice. -/
def removeLoop (id : Int) (currentConfig : List SubredditWatchItem) : Option Slice :=
  (List.range currentConfig.length).foldlM (removeStep id)
    { cells := currentConfig, len := currentConfig.length }

/-- Handler `HandleRemove`; `none` is a run-time panic of the handler. -/
def HandleRemove (ctx : Ctx) : Option Response :=
  let currentConfig := ctx.currentConfig
  match ParseInt32 ctx.itemParam with
  | .error err =>
    some { RedditConfig := currentConfig
           alerts := [ErrorAlert [.text "Failed parsing id", .parseErr ctx.itemParam err]]
           storeOps := [], cpLog := [] }
  | .ok idInt =>
    match FindWatchItem currentConfig idInt with
    | none =>
      some { RedditConfig := currentConfig, alerts := [ErrorAlert [.text "Unknown id"]],
             storeOps := [], cpLog := [] }
    | some (_, item) =>
      let err := ctx.client.Remove item
      let (alerts, failed) := CheckErr [] err "Failed removing item :'("
      if failed then
        some { RedditConfig := currentConfig, alerts := alerts,
               storeOps := [StoreOp.remove item], cpLog := [] }
      else
        match removeLoop idInt currentConfig with
        | none => none
        | some s =>
          some { RedditConfig := s.items
                 alerts := alerts ++
                   [SucessAlert [.text "Sucessfully removed subreddit feed for /r/ :')",
                                 .text item.Sub]]
                 storeOps := [StoreOp.remove item]
                 cpLog := ["Removed feed from /r/" ++ item.Sub] }

/-- A string without leading and without trailing white space. -/
def Trimmed (s : String) : Prop :=
  (∀ c, s.data.head? = some c → isSpace c = false) ∧
  (∀ c, s.data.getLast? = some c → isSpace c = false)

/-- Rune `d` is the lower case of the ASCII rune `c`: an upper-case letter
`A`..`Z` moved 32 code points up to `a`..`z`, any other rune left as it is. -/
def LowerOf (c d : Char) : Prop :=
  if 65 ≤ c.toNat ∧ c.toNat ≤ 90 then d.toNat = c.toNat + 32 else d = c

/-! ## Example inputs -/

/-- A store client on which every call succeeds and the stored list is empty. -/
def okClient : Client := ⟨fun _ => ([], none), fun _ => none, fun _ => none⟩

/-- A store client on which every call fails. -/
def downClient : Client :=
  ⟨fun _ => ([], some "connection refused"), fun _ => some "connection refused",
   fun _ => some "connection refused"⟩

/-- The list of the spec's scenarios: items 1 (`funny`) and 3 (`pics`). -/
def scenarioList : List SubredditWatchItem :=
  [⟨"funny", "g", "c0", 1⟩, ⟨"pics", "g", "c0", 3⟩]

/-- A request of guild `g` on the given store client; the raw form value is
the subreddit field as submitted. -/
def requestOn (client : Client) (cfg : List SubredditWatchItem) (form : Form)
    (item : String) : Ctx :=
  { client := client, activeGuild := "g", currentConfig := cfg, form := form,
    formOk := true, formSubreddit := form.Subreddit, itemParam := item }

/-- A request of guild `g` on a working store. -/
def request (cfg : List SubredditWatchItem) (form : Form) (item : String) : Ctx :=
  { client := okClient, activeGuild := "g", currentConfig := cfg, form := form,
    formOk := true, formSubreddit := form.Subreddit, itemParam := item }

/-! ## Lemmas on `FindWatchItem` -/

theorem FindWatchItem_eq_none {l : List SubredditWatchItem} {id : Int} :
    FindWatchItem l id = none ↔ ∀ c ∈ l, c.ID ≠ id := by
  induction l with
  | nil => simp [FindWatchItem]
  | cons c rest ih =>
    by_cases h : c.ID = id
    · simp [FindWatchItem, h]
    · simp [FindWatchItem, h, ih]

theorem FindWatchItem_some {l : List SubredditWatchItem} {id : Int} {k : Nat}
    {item : SubredditWatchItem} (h : FindWatchItem l id = some (k, item)) :
    l.get? k = some item ∧ item.ID = id := by
  induction l generalizing k with
  | nil => simp [FindWatchItem] at h
  | cons c rest ih =>
    by_cases hc : c.ID = id
    · simp [FindWatchItem, hc] at h
      obtain ⟨rfl, rfl⟩ := h
      simp [hc]
    · rw [FindWatchItem, if_neg hc] at h
      cases hr : FindWatchItem rest id with
      | none => simp [hr] at h
      | some p =>
        obtain ⟨j, it⟩ := p
        simp only [hr, Option.map_some', Option.some.injEq, Prod.mk.injEq] at h
        obtain ⟨rfl, rfl⟩ := h
        simpa using ih hr

theorem FindWatchItem_append {l1 l2 : List SubredditWatchItem} {item : SubredditWatchItem}
    (h1 : ∀ c ∈ l1, c.ID ≠ item.ID) :
    FindWatchItem (l1 ++ item :: l2) item.ID = some (l1.length, item) := by
  induction l1 with
  | nil => simp [FindWatchItem]
  | cons c rest ih =>
    have hc : c.ID ≠ item.ID := h1 c (by simp)
    have := ih (fun c hc => h1 c (by simp [hc]))
    simp [FindWatchItem, hc, this]

/-! ## `baseData` on a failing store -/

theorem baseData_always_serves_inner (client : Client) (guild : String) :
    Effect.serveInner (client.GetConfig ("guild_subreddit_watch:" ++ guild)).1 ∈
      baseData client guild := by
  simp [baseData]

/-- C3: when the fetch of the list fails, `baseData` renders `cp_reddit` with
the support message and then still calls the inner handler (with the list the
failed fetch returned): the chain is not cut short. -/
theorem baseData_failure_still_serves_inner :
    baseData downClient "g" =
      [Effect.render "cp_reddit"
          [ErrorAlert [.text "Failed retrieving config, message support in the yagpdb server"]],
       Effect.serveInner []] := by
  rfl

/-! ## `HandleNew`: the capacity limit -/

/-- C6: with a valid form and a loaded list of more than 24 items, `HandleNew`
answers with the loaded list unchanged and the alert "Max 25 items allowed",
and issues no store call. -/
theorem HandleNew_capacity (ctx : Ctx) (hok : ctx.formOk = true)
    (hlen : ctx.currentConfig.length > 24) :
    HandleNew ctx =
      { RedditConfig := ctx.currentConfig
        alerts := [ErrorAlert [.text "Max 25 items allowed"]]
        storeOps := [], cpLog := [] } := by
  simp [HandleNew, hok, hlen]

theorem HandleNew_capacity_witness :
    (List.replicate 25 (⟨"funny", "g", "c0", 1⟩ : SubredditWatchItem)).length = 25 ∧
    HandleNew (request (List.replicate 25 ⟨"funny", "g", "c0", 1⟩) ⟨"gifs", "c1", 0⟩ "") =
      { RedditConfig := List.replicate 25 ⟨"funny", "g", "c0", 1⟩
        alerts := [ErrorAlert [.text "Max 25 items allowed"]]
        storeOps := [], cpLog := [] } :=
  ⟨by simp, HandleNew_capacity _ rfl (by simp [request])⟩

/-! ## `HandleRemove`: a bad id -/

/-- C7: when the route id does not parse, or parses to an ID that no item of
the list has, `HandleRemove` returns, the response list is the loaded list, no
store call is issued, and one error alert is added: it carries the parse error
in the first case and "Unknown id" in the second. -/
theorem HandleRemove_bad_id (ctx : Ctx)
    (h : (∃ e, ParseInt32 ctx.itemParam = .error e) ∨
         (∃ v, ParseInt32 ctx.itemParam = .ok v ∧ ∀ c ∈ ctx.currentConfig, c.ID ≠ v)) :
    ∃ r, HandleRemove ctx = some r ∧ r.RedditConfig = ctx.currentConfig ∧
      r.storeOps = [] ∧ r.cpLog = [] ∧
      (∀ e, ParseInt32 ctx.itemParam = .error e →
        r.alerts = [ErrorAlert [.text "Failed parsing id", .parseErr ctx.itemParam e]]) ∧
      (∀ v, ParseInt32 ctx.itemParam = .ok v →
        r.alerts = [ErrorAlert [.text "Unknown id"]]) := by
  rcases h with ⟨e, he⟩ | ⟨v, hv, hno⟩
  · refine ⟨_, by simp only [HandleRemove, he]; rfl, rfl, rfl, rfl, ?_, ?_⟩
    · intro e2 h2
      rw [he] at h2
      cases h2
      rfl
    · intro v h2
      rw [he] at h2
      cases h2
  · have hf := FindWatchItem_eq_none.mpr hno
    refine ⟨_, by simp only [HandleRemove, hv, hf]; rfl, rfl, rfl, rfl, ?_, ?_⟩
    · intro e h2
      rw [hv] at h2
      cases h2
    · intro w _
      rfl

theorem ParseInt32_examples :
    ParseInt32 "3" = .ok 3 ∧ ParseInt32 "+7" = .ok 7 ∧ ParseInt32 "-0" = .ok 0 ∧
    ParseInt32 "2147483647" = .ok 2147483647 ∧
    ParseInt32 "-2147483648" = .ok (-2147483648) ∧
    ParseInt32 "2147483648" = .error .outOfRange ∧
    ParseInt32 "-2147483649" = .error .outOfRange ∧
    ParseInt32 "4294967296x" = .error .outOfRange ∧
    ParseInt32 "99999999999x" = .error .outOfRange ∧
    ParseInt32 "42949x" = .error .invalid ∧
    ParseInt32 "x4294967296" = .error .invalid ∧
    ParseInt32 "" = .error .invalid ∧ ParseInt32 "-" = .error .invalid ∧
    ParseInt32 "1_0" = .error .invalid ∧ ParseInt32 " 1" = .error .invalid := by
  refine ⟨rfl, rfl, rfl, rfl, rfl, rfl, rfl, rfl, rfl, rfl, rfl, rfl, rfl, rfl, rfl⟩

theorem HandleRemove_bad_id_witness :
    (∃ r, HandleRemove (request scenarioList default "x1") = some r ∧
      r.RedditConfig = scenarioList ∧ r.storeOps = [] ∧ r.cpLog = [] ∧
      (∀ e, ParseInt32 "x1" = .error e →
        r.alerts = [ErrorAlert [.text "Failed parsing id", .parseErr "x1" e]]) ∧
      (∀ v, ParseInt32 "x1" = .ok v → r.alerts = [ErrorAlert [.text "Unknown id"]])) ∧
    (∃ r, HandleRemove (request scenarioList default "2") = some r ∧
      r.RedditConfig = scenarioList ∧ r.storeOps = [] ∧ r.cpLog = [] ∧
      (∀ e, ParseInt32 "2" = .error e →
        r.alerts = [ErrorAlert [.text "Failed parsing id", .parseErr "2" e]]) ∧
      (∀ v, ParseInt32 "2" = .ok v → r.alerts = [ErrorAlert [.text "Unknown id"]])) ∧
    (∃ r, HandleRemove (request scenarioList default "4294967296x") = some r ∧
      r.RedditConfig = scenarioList ∧ r.storeOps = [] ∧ r.cpLog = [] ∧
      (∀ e, ParseInt32 "4294967296x" = .error e →
        r.alerts = [ErrorAlert [.text "Failed parsing id", .parseErr "4294967296x" e]]) ∧
      (∀ v, ParseInt32 "4294967296x" = .ok v →
        r.alerts = [ErrorAlert [.text "Unknown id"]])) :=
  ⟨HandleRemove_bad_id (request scenarioList default "x1") (Or.inl ⟨.invalid, rfl⟩),
   HandleRemove_bad_id (request scenarioList default "2")
     (Or.inr ⟨2, rfl, by decide⟩),
   HandleRemove_bad_id (request scenarioList default "4294967296x")
     (Or.inl ⟨.outOfRange, rfl⟩)⟩

/-! ## `HandleModify` -/

theorem get?_set_other {α : Type} (l : List α) (k j : Nat) (a : α) (h : j ≠ k) :
    (l.set k a).get? j = l.get? j := by
  simp [List.getElem?_set, Ne.symm h]

theorem get?_set_same {α : Type} (l : List α) (k : Nat) (a b : α) (h : l.get? k = some b) :
    (l.set k a).get? k = some a := by
  have hk : k < l.length := by
    rcases Nat.lt_or_ge k l.length with hk | hk
    · exact hk
    · rw [List.get?_eq_none.mpr hk] at h
      cases h
  simp [List.getElem?_set, hk]

theorem toNat_ofNat_letter (n : Nat) (h : 65 ≤ n ∧ n ≤ 90) :
    (Char.ofNat (n + 32)).toNat = n + 32 := by
  obtain ⟨h1, h2⟩ := h
  interval_cases n <;> rfl

theorem lowerRune_ascii (u : CaseTables) (c : Char) (h : c.toNat < 128) :
    LowerOf c (lowerRune u c) := by
  unfold LowerOf lowerRune
  rw [if_pos h]
  by_cases hu : 65 ≤ c.toNat ∧ c.toNat ≤ 90
  · rw [if_pos hu, if_pos hu]
    exact toNat_ofNat_letter _ hu
  · rw [if_neg hu, if_neg hu]

theorem ToLower_lower (u : CaseTables) (s : String) :
    List.Forall₂ (fun c d => c.toNat < 128 → LowerOf c d) s.data (ToLower u s).data := by
  show List.Forall₂ _ s.data (s.data.map (lowerRune u))
  induction s.data with
  | nil => exact List.Forall₂.nil
  | cons c rest ih => exact List.Forall₂.cons (lowerRune_ascii u c) ih

theorem ToLower_no_upper (u : CaseTables) (s : String) (h : ∀ c ∈ s.data, c.toNat < 128) :
    ∀ d ∈ (ToLower u s).data, ¬ (65 ≤ d.toNat ∧ d.toNat ≤ 90) := by
  intro d hd
  obtain ⟨c, hc, rfl⟩ := List.mem_map.mp hd
  have hl := lowerRune_ascii u c (h c hc)
  unfold LowerOf at hl
  by_cases hu : 65 ≤ c.toNat ∧ c.toNat ≤ 90
  · rw [if_pos hu] at hl
    omega
  · rw [if_neg hu] at hl
    rw [hl]
    exact hu

/-- C5: with a valid form whose ID is found at position `k` (item `item`) and
whose trimmed subreddit equals the item's subreddit under case folding,
`HandleModify` issues exactly one store call, a write of the item with the
form's channel and the old ID and subreddit; in the response list position `k`
holds that item and every other position is as loaded. -/
theorem HandleModify_same_subreddit (u : CaseTables) (ctx : Ctx) (k : Nat)
    (item : SubredditWatchItem) (hok : ctx.formOk = true)
    (hfind : FindWatchItem ctx.currentConfig ctx.form.ID = some (k, item))
    (hsame : EqualFold u (TrimSpace ctx.form.Subreddit) item.Sub = true) :
    ctx.currentConfig.get? k = some item ∧ item.ID = ctx.form.ID ∧
    (HandleModify u ctx).storeOps =
      [StoreOp.set ⟨item.Sub, item.Guild, ctx.form.Channel, item.ID⟩] ∧
    (HandleModify u ctx).RedditConfig.length = ctx.currentConfig.length ∧
    (HandleModify u ctx).RedditConfig.get? k =
      some ⟨item.Sub, item.Guild, ctx.form.Channel, item.ID⟩ ∧
    (∀ j, j ≠ k → (HandleModify u ctx).RedditConfig.get? j = ctx.currentConfig.get? j) := by
  obtain ⟨hget, hid⟩ := FindWatchItem_some hfind
  have hcfg : (HandleModify u ctx).RedditConfig =
      ctx.currentConfig.set k ⟨item.Sub, item.Guild, ctx.form.Channel, item.ID⟩ := by
    simp only [HandleModify, hok, hfind, hsame]
    cases ctx.client.Set ⟨item.Sub, item.Guild, ctx.form.Channel, item.ID⟩ <;> rfl
  have hops : (HandleModify u ctx).storeOps =
      [StoreOp.set ⟨item.Sub, item.Guild, ctx.form.Channel, item.ID⟩] := by
    simp only [HandleModify, hok, hfind, hsame]
    cases ctx.client.Set ⟨item.Sub, item.Guild, ctx.form.Channel, item.ID⟩ <;> rfl
  refine ⟨hget, hid, hops, ?_, ?_, ?_⟩
  · rw [hcfg, List.length_set]
  · rw [hcfg]
    exact get?_set_same _ _ _ _ hget
  · intro j hj
    rw [hcfg]
    exact get?_set_other _ _ _ _ hj

theorem HandleModify_same_subreddit_witness :
    FindWatchItem scenarioList 1 = some (0, ⟨"funny", "g", "c0", 1⟩) ∧
    EqualFold asciiTables (TrimSpace "FUNNY") "funny" = true ∧
    (HandleModify asciiTables (request scenarioList ⟨"FUNNY", "c2", 1⟩ "1")).storeOps =
      [StoreOp.set ⟨"funny", "g", "c2", 1⟩] ∧
    (HandleModify asciiTables (request scenarioList ⟨"FUNNY", "c2", 1⟩ "1")).RedditConfig.get? 0 =
      some ⟨"funny", "g", "c2", 1⟩ ∧
    (∀ j, j ≠ 0 →
      (HandleModify asciiTables (request scenarioList ⟨"FUNNY", "c2", 1⟩ "1")).RedditConfig.get? j =
        scenarioList.get? j) :=
  have h := HandleModify_same_subreddit asciiTables
    (request scenarioList ⟨"FUNNY", "c2", 1⟩ "1") 0 ⟨"funny", "g", "c0", 1⟩ rfl rfl (by decide)
  ⟨rfl, by decide, h.2.2.1, h.2.2.2.2.1, h.2.2.2.2.2⟩

/-- C4: with a valid form whose ID is found at position `k` (item `item`) and
whose trimmed subreddit differs from the item's subreddit under case folding,
the first store call of `HandleModify` is the removal of the item under its old
subreddit. When the removal fails, it is the only store call, position `k` of
the response list keeps the old subreddit, and the one alert is the error
alert. When the removal succeeds, position `k` holds the item with the
lower-cased raw form value as subreddit, and that item is written to the store
right after the removal. Lower-cased: rune by rune, every ASCII rune of the raw
form value is replaced by its lower case, and when the raw value is all ASCII
no upper-case letter is left. -/
theorem HandleModify_new_subreddit (u : CaseTables) (ctx : Ctx) (k : Nat)
    (item : SubredditWatchItem) (hok : ctx.formOk = true)
    (hfind : FindWatchItem ctx.currentConfig ctx.form.ID = some (k, item))
    (hnew : EqualFold u (TrimSpace ctx.form.Subreddit) item.Sub = false) :
    (HandleModify u ctx).storeOps.head? =
      some (StoreOp.remove ⟨item.Sub, item.Guild, ctx.form.Channel, item.ID⟩) ∧
    (∀ e, ctx.client.Remove ⟨item.Sub, item.Guild, ctx.form.Channel, item.ID⟩ = some e →
      (HandleModify u ctx).storeOps =
        [StoreOp.remove ⟨item.Sub, item.Guild, ctx.form.Channel, item.ID⟩] ∧
      (HandleModify u ctx).RedditConfig.get? k =
        some ⟨item.Sub, item.Guild, ctx.form.Channel, item.ID⟩ ∧
      (HandleModify u ctx).alerts = [ErrorAlert [.text "Failed saving item :'("]]) ∧
    (ctx.client.Remove ⟨item.Sub, item.Guild, ctx.form.Channel, item.ID⟩ = none →
      (HandleModify u ctx).storeOps =
        [StoreOp.remove ⟨item.Sub, item.Guild, ctx.form.Channel, item.ID⟩,
         StoreOp.set ⟨ToLower u ctx.formSubreddit, item.Guild, ctx.form.Channel, item.ID⟩] ∧
      (HandleModify u ctx).RedditConfig.get? k =
        some ⟨ToLower u ctx.formSubreddit, item.Guild, ctx.form.Channel, item.ID⟩ ∧
      List.Forall₂ (fun c d => c.toNat < 128 → LowerOf c d)
        ctx.formSubreddit.data (ToLower u ctx.formSubreddit).data ∧
      ((∀ c ∈ ctx.formSubreddit.data, c.toNat < 128) →
        ∀ d ∈ (ToLower u ctx.formSubreddit).data, ¬ (65 ≤ d.toNat ∧ d.toNat ≤ 90))) := by
  obtain ⟨hget, _⟩ := FindWatchItem_some hfind
  cases hrem : ctx.client.Remove ⟨item.Sub, item.Guild, ctx.form.Channel, item.ID⟩ with
  | some e =>
    have hr : HandleModify u ctx =
        { RedditConfig := ctx.currentConfig.set k ⟨item.Sub, item.Guild, ctx.form.Channel, item.ID⟩
          alerts := [ErrorAlert [.text "Failed saving item :'("]]
          storeOps := [StoreOp.remove ⟨item.Sub, item.Guild, ctx.form.Channel, item.ID⟩]
          cpLog := [] } := by
      simp only [HandleModify, hok, hfind, hnew, hrem]
      rfl
    rw [hr]
    refine ⟨rfl, fun _ _ => ⟨rfl, get?_set_same _ _ _ _ hget, rfl⟩, fun h => (by cases h)⟩
  | none =>
    have hops : (HandleModify u ctx).storeOps =
        [StoreOp.remove ⟨item.Sub, item.Guild, ctx.form.Channel, item.ID⟩,
         StoreOp.set ⟨ToLower u ctx.formSubreddit, item.Guild, ctx.form.Channel, item.ID⟩] := by
      simp only [HandleModify, hok, hfind, hnew, hrem]
      cases ctx.client.Set ⟨ToLower u ctx.formSubreddit, item.Guild, ctx.form.Channel, item.ID⟩ <;>
        rfl
    have hcfg : (HandleModify u ctx).RedditConfig = ctx.currentConfig.set k
        ⟨ToLower u ctx.formSubreddit, item.Guild, ctx.form.Channel, item.ID⟩ := by
      simp only [HandleModify, hok, hfind, hnew, hrem]
      cases ctx.client.Set ⟨ToLower u ctx.formSubreddit, item.Guild, ctx.form.Channel, item.ID⟩ <;>
        rfl
    refine ⟨by rw [hops]; rfl, fun e h => (by cases h),
      fun _ => ⟨hops, ?_, ToLower_lower u _, ToLower_no_upper u _⟩⟩
    rw [hcfg]
    exact get?_set_same _ _ _ _ hget

theorem HandleModify_new_subreddit_witness :
    ((HandleModify asciiTables (request scenarioList ⟨" GIFS ", "c2", 1⟩ "1")).storeOps =
        [StoreOp.remove ⟨"funny", "g", "c2", 1⟩, StoreOp.set ⟨" gifs ", "g", "c2", 1⟩] ∧
      (HandleModify asciiTables (request scenarioList ⟨" GIFS ", "c2", 1⟩ "1")).RedditConfig.get? 0 =
        some ⟨" gifs ", "g", "c2", 1⟩ ∧
      ∀ d ∈ " gifs ".data, ¬ (65 ≤ d.toNat ∧ d.toNat ≤ 90)) ∧
    ((HandleModify asciiTables
        (requestOn downClient scenarioList ⟨" GIFS ", "c2", 1⟩ "1")).storeOps =
        [StoreOp.remove ⟨"funny", "g", "c2", 1⟩] ∧
      (HandleModify asciiTables
        (requestOn downClient scenarioList ⟨" GIFS ", "c2", 1⟩ "1")).RedditConfig.get? 0 =
        some ⟨"funny", "g", "c2", 1⟩ ∧
      (HandleModify asciiTables
        (requestOn downClient scenarioList ⟨" GIFS ", "c2", 1⟩ "1")).alerts =
        [ErrorAlert [.text "Failed saving item :'("]]) :=
  have h := (HandleModify_new_subreddit asciiTables
    (request scenarioList ⟨" GIFS ", "c2", 1⟩ "1") 0 ⟨"funny", "g", "c0", 1⟩ rfl rfl
    (by decide)).2.2 rfl
  ⟨⟨h.1, h.2.1, h.2.2.2 (by decide)⟩,
   (HandleModify_new_subreddit asciiTables
      (requestOn downClient scenarioList ⟨" GIFS ", "c2", 1⟩ "1") 0
      ⟨"funny", "g", "c0", 1⟩ rfl rfl (by decide)).2.1 "connection refused" rfl⟩

/-! ## `HandleNew`: the new ID -/

theorem wrapInt_of_range {x : Int} (h0 : minInt ≤ x) (h1 : x ≤ maxInt) : wrapInt x = x := by
  unfold wrapInt
  unfold minInt at h0
  unfold maxInt at h1
  omega

theorem foldl_highest (l : List SubredditWatchItem) (a : Int) :
    l.foldl (fun highest v => if v.ID > highest then v.ID else highest) a =
      (l.map (fun v => v.ID)).foldr max a := by
  induction l generalizing a with
  | nil => rfl
  | cons c rest ih =>
    simp only [List.foldl_cons, List.map_cons, List.foldr_cons]
    rw [ih]
    clear ih
    induction rest with
    | nil =>
      simp only [List.map_nil, List.foldr_nil]
      split <;> omega
    | cons d rest ih2 =>
      simp only [List.map_cons, List.foldr_cons]
      split at ih2 <;> split <;> omega

theorem highestID_eq (l : List SubredditWatchItem) :
    highestID l = (l.map (fun v => v.ID)).foldr max 0 :=
  foldl_highest l 0

theorem highestID_bounds (l : List SubredditWatchItem) :
    0 ≤ highestID l ∧ (∀ v ∈ l, v.ID ≤ highestID l) ∧
      (highestID l = 0 ∨ ∃ v ∈ l, v.ID = highestID l) := by
  rw [highestID_eq]
  induction l with
  | nil => simp
  | cons c rest ih =>
    obtain ⟨h0, h1, h2⟩ := ih
    simp only [List.map_cons, List.foldr_cons, List.mem_cons, forall_eq_or_imp, exists_eq_or_imp]
    refine ⟨by omega, ⟨by omega, fun v hv => ?_⟩, ?_⟩
    · have := h1 v hv
      omega
    · rcases le_total c.ID ((rest.map (fun v => v.ID)).foldr max 0) with hle | hle
      · rw [max_eq_right hle]
        rcases h2 with h2 | ⟨v, hv, hveq⟩
        · exact Or.inl h2
        · exact Or.inr (Or.inr ⟨v, hv, hveq⟩)
      · rw [max_eq_left hle]
        exact Or.inr (Or.inl rfl)

theorem newWatchItem_ID (ctx : Ctx) (hmax : ∀ v ∈ ctx.currentConfig, v.ID < maxInt) :
    (newWatchItem ctx).ID = highestID ctx.currentConfig + 1 := by
  obtain ⟨h0, _, h2⟩ := highestID_bounds ctx.currentConfig
  have hlt : highestID ctx.currentConfig < maxInt := by
    rcases h2 with h2 | ⟨v, hv, hveq⟩
    · rw [h2]
      decide
    · rw [← hveq]
      exact hmax v hv
  show wrapInt (highestID ctx.currentConfig + 1) = _
  apply wrapInt_of_range
  · unfold minInt
    omega
  · omega

theorem HandleNew_success (ctx : Ctx) (hlen : ctx.currentConfig.length ≤ 24)
    (hok : ctx.formOk = true) (hset : ctx.client.Set (newWatchItem ctx) = none) :
    HandleNew ctx =
      { RedditConfig := ctx.currentConfig ++ [newWatchItem ctx]
        alerts := [SucessAlert
          [.text ("Sucessfully added subreddit feed for /r/" ++ (newWatchItem ctx).Sub)]]
        storeOps := [StoreOp.set (newWatchItem ctx)]
        cpLog := ["Added reddit feed from /r/" ++ ctx.form.Subreddit] } := by
  have hl : ¬ ctx.currentConfig.length > 24 := by omega
  simp only [HandleNew, hok, hl, hset]
  rfl

/-- C1 (as amended): with a loaded list of at most 24 items, a valid form and
a successful store write, the response list is the loaded list followed by one
new item, built from the trimmed subreddit and the channel of the form. Its ID
is 1 + the maximum of 0 and the loaded IDs in `int` arithmetic; when no loaded
ID is the largest `int` it is 1 + the maximum loaded ID if some loaded ID is
non-negative, and 1 if the list is empty or holds no positive ID. -/
theorem HandleNew_create (ctx : Ctx) (hlen : ctx.currentConfig.length ≤ 24)
    (hok : ctx.formOk = true) (hset : ctx.client.Set (newWatchItem ctx) = none) :
    (HandleNew ctx).RedditConfig = ctx.currentConfig ++ [newWatchItem ctx] ∧
    (HandleNew ctx).RedditConfig.length = ctx.currentConfig.length + 1 ∧
    (newWatchItem ctx).Sub = TrimSpace ctx.form.Subreddit ∧
    (newWatchItem ctx).Channel = ctx.form.Channel ∧
    (newWatchItem ctx).ID =
      wrapInt (1 + (ctx.currentConfig.map (fun v => v.ID)).foldr max 0) ∧
    ((∀ v ∈ ctx.currentConfig, v.ID < maxInt) →
      ((∃ v ∈ ctx.currentConfig, 0 ≤ v.ID) →
        ∃ m ∈ ctx.currentConfig, (∀ v ∈ ctx.currentConfig, v.ID ≤ m.ID) ∧
          (newWatchItem ctx).ID = 1 + m.ID) ∧
      ((∀ v ∈ ctx.currentConfig, v.ID ≤ 0) → (newWatchItem ctx).ID = 1)) := by
  have hr := HandleNew_success ctx hlen hok hset
  refine ⟨by rw [hr], by rw [hr]; simp, rfl, rfl, ?_, ?_⟩
  · show wrapInt (highestID ctx.currentConfig + 1) = _
    rw [highestID_eq, add_comm]
  · intro hmax
    have hid := newWatchItem_ID ctx hmax
    obtain ⟨h0, h1, h2⟩ := highestID_bounds ctx.currentConfig
    constructor
    · rintro ⟨w, hw, hw0⟩
      rcases h2 with h2 | ⟨v, hv, hveq⟩
      · have hw1 := h1 w hw
        refine ⟨w, hw, fun v hv => ?_, ?_⟩
        · have := h1 v hv
          omega
        · omega
      · refine ⟨v, hv, fun x hx => ?_, ?_⟩
        · have := h1 x hx
          omega
        · omega
    · intro hall
      rcases h2 with h2 | ⟨v, hv, hveq⟩
      · omega
      · have := hall v hv
        omega

theorem HandleNew_create_witness :
    (HandleNew (request scenarioList ⟨" gifs ", "c1", 0⟩ "")).RedditConfig =
      scenarioList ++ [⟨"gifs", "g", "c1", 4⟩] ∧
    (HandleNew (request scenarioList ⟨" gifs ", "c1", 0⟩ "")).RedditConfig.length = 3 :=
  have h := HandleNew_create (request scenarioList ⟨" gifs ", "c1", 0⟩ "")
    (by decide) rfl rfl
  ⟨h.1, h.2.1⟩

/-- C1 (as stated) fails on a list whose IDs are all negative: from the one
item list with ID -5, whose maximum ID is -5, a valid create on a working store
returns a new item with ID 1, not 1 + (-5). -/
theorem create_on_negative_ids :
    (request [⟨"funny", "g", "c0", -5⟩] ⟨" gifs ", "c1", 0⟩ "").currentConfig.length ≤ 24 ∧
    (request [⟨"funny", "g", "c0", -5⟩] ⟨" gifs ", "c1", 0⟩ "").formOk = true ∧
    okClient.Set (newWatchItem (request [⟨"funny", "g", "c0", -5⟩] ⟨" gifs ", "c1", 0⟩ "")) =
      none ∧
    ([⟨"funny", "g", "c0", -5⟩].map (fun v : SubredditWatchItem => v.ID)).max? = some (-5) ∧
    (HandleNew (request [⟨"funny", "g", "c0", -5⟩] ⟨" gifs ", "c1", 0⟩ "")).RedditConfig =
      [⟨"funny", "g", "c0", -5⟩, ⟨"gifs", "g", "c1", 1⟩] ∧
    (1 : Int) ≠ 1 + (-5) := by
  refine ⟨by decide, rfl, rfl, rfl, by decide, by decide⟩

/-! ## `HandleRemove`: the removal loop -/

theorem removeStep_skip (id : Int) (s : Slice) (k : Nat)
    (h : ∀ c, s.cells.get? k = some c → c.ID ≠ id) : removeStep id s k = some s := by
  unfold removeStep
  cases hc : s.cells.get? k with
  | none => rfl
  | some c => simp [h c hc]

theorem removeSteps_skip (id : Int) (s : Slice) (ks : List Nat)
    (h : ∀ k ∈ ks, ∀ c, s.cells.get? k = some c → c.ID ≠ id) :
    ks.foldlM (removeStep id) s = some s := by
  induction ks with
  | nil => rfl
  | cons k rest ih =>
    rw [List.foldlM_cons, removeStep_skip id s k (h k (by simp))]
    exact ih (fun j hj => h j (by simp [hj]))

theorem range_split (a b : Nat) :
    List.range (a + (b + 1)) = List.range a ++ a :: List.range' (a + 1) b := by
  rw [List.range_eq_range', List.range_eq_range', ← List.range'_succ,
    show a + (b + 1) = b + 1 + a by omega, ← List.range'_append 0 a (b + 1) 1]
  simp

theorem removeStep_hit (l1 l2 : List SubredditWatchItem) (item : SubredditWatchItem) :
    removeStep item.ID ⟨l1 ++ item :: l2, (l1 ++ item :: l2).length⟩ l1.length =
      some ⟨l1 ++ l2 ++ (item :: l2).drop l2.length, l1.length + l2.length⟩ := by
  have hget : (l1 ++ item :: l2).get? l1.length = some item := by
    rw [List.get?_eq_getElem?, List.getElem?_append_right (Nat.le_refl _)]
    simp
  unfold removeStep
  simp only [hget, if_true]
  have hlen : l1.length + 1 ≤ (l1 ++ item :: l2).length := by simp
  rw [if_pos hlen]
  congr 2
  · congr 1
    · congr 1
      · simp
      · have : List.drop (l1.length + 1) (l1 ++ item :: l2) = l2 := by
          rw [List.drop_append]
          rfl
        rw [this]
        simp
        omega
    · have : (l1 ++ item :: l2).length - 1 = l1.length + l2.length := by simp
      rw [this, List.drop_append]
  · simp

theorem drop_length_cons_subset (item : SubredditWatchItem) (l2 : List SubredditWatchItem)
    (hne : l2 ≠ []) : ∀ c ∈ (item :: l2).drop l2.length, c ∈ l2 := by
  intro c hc
  cases l2 with
  | nil => exact absurd rfl hne
  | cons b rest =>
    simp only [List.length_cons, List.drop_succ_cons] at hc
    exact List.mem_of_mem_drop hc

theorem removeLoop_unique (l1 l2 : List SubredditWatchItem) (item : SubredditWatchItem)
    (h1 : ∀ c ∈ l1, c.ID ≠ item.ID) (h2 : ∀ c ∈ l2, c.ID ≠ item.ID) :
    ∃ s, removeLoop item.ID (l1 ++ item :: l2) = some s ∧ s.items = l1 ++ l2 := by
  refine ⟨⟨l1 ++ l2 ++ (item :: l2).drop l2.length, l1.length + l2.length⟩, ?_, ?_⟩
  · unfold removeLoop
    have hlen : (l1 ++ item :: l2).length = l1.length + (l2.length + 1) := by simp
    rw [hlen, range_split, List.foldlM_append, ← hlen]
    rw [removeSteps_skip]
    · simp only [Option.bind_eq_bind, Option.some_bind, List.foldlM_cons]
      rw [removeStep_hit]
      simp only [Option.some_bind]
      apply removeSteps_skip
      intro k hk c hc
      have hk1 : l1.length + 1 ≤ k ∧ k < l1.length + 1 + l2.length := by
        simpa [List.mem_range'_1] using hk
      have hne : l2 ≠ [] := by
        intro h
        rw [h] at hk1
        simp at hk1
        omega
      have hmem : c ∈ l1 ++ l2 ++ (item :: l2).drop l2.length := List.get?_mem hc
      simp only [List.mem_append] at hmem
      rcases hmem with (hm | hm) | hm
      · exact h1 c hm
      · exact h2 c hm
      · exact h2 c (drop_length_cons_subset item l2 hne c hm)
    · intro k hk c hc
      have hk1 : k < l1.length := by simpa using hk
      have : (l1 ++ item :: l2).get? k = l1.get? k := by
        simp [List.getElem?_append_left hk1]
      rw [this] at hc
      exact h1 c (List.get?_mem hc)
  · show List.take (l1.length + l2.length) (l1 ++ l2 ++ _) = l1 ++ l2
    exact List.take_left' (by simp)

theorem FindWatchItem_split {l : List SubredditWatchItem} {id : Int} {k : Nat}
    {item : SubredditWatchItem} (h : FindWatchItem l id = some (k, item)) :
    ∃ l1 l2, l = l1 ++ item :: l2 ∧ l1.length = k ∧ item.ID = id ∧ ∀ c ∈ l1, c.ID ≠ id := by
  induction l generalizing k with
  | nil => simp [FindWatchItem] at h
  | cons c rest ih =>
    by_cases hc : c.ID = id
    · simp [FindWatchItem, hc] at h
      obtain ⟨rfl, rfl⟩ := h
      exact ⟨[], rest, rfl, rfl, hc, by simp⟩
    · rw [FindWatchItem, if_neg hc] at h
      cases hr : FindWatchItem rest id with
      | none => simp [hr] at h
      | some p =>
        obtain ⟨j, it⟩ := p
        simp only [hr, Option.map_some', Option.some.injEq, Prod.mk.injEq] at h
        obtain ⟨rfl, rfl⟩ := h
        obtain ⟨l1, l2, hl, hlen, hid, hall⟩ := ih hr
        refine ⟨c :: l1, l2, by rw [hl]; rfl, by simp [hlen], hid, ?_⟩
        intro d hd
        rcases List.mem_cons.mp hd with rfl | hd
        · exact hc
        · exact hall d hd

theorem HandleRemove_success (ctx : Ctx) (v : Int) (l1 l2 : List SubredditWatchItem)
    (item : SubredditWatchItem) (hparse : ParseInt32 ctx.itemParam = .ok v)
    (hcfg : ctx.currentConfig = l1 ++ item :: l2) (hid : item.ID = v)
    (h1 : ∀ c ∈ l1, c.ID ≠ v) (h2 : ∀ c ∈ l2, c.ID ≠ v)
    (hrem : ctx.client.Remove item = none) :
    HandleRemove ctx =
      some { RedditConfig := l1 ++ l2
             alerts := [SucessAlert [.text "Sucessfully removed subreddit feed for /r/ :')",
                                     .text item.Sub]]
             storeOps := [StoreOp.remove item]
             cpLog := ["Removed feed from /r/" ++ item.Sub] } := by
  subst hid
  have hfind : FindWatchItem ctx.currentConfig item.ID = some (l1.length, item) := by
    rw [hcfg]
    exact FindWatchItem_append h1
  obtain ⟨s, hs, hitems⟩ := removeLoop_unique l1 l2 item h1 h2
  rw [← hcfg] at hs
  simp only [HandleRemove, hparse, hfind, hrem, hs]
  rw [← hitems]
  rfl

theorem nodup_ids_split {l1 l2 : List SubredditWatchItem} {item : SubredditWatchItem}
    (hnd : ((l1 ++ item :: l2).map (fun v => v.ID)).Nodup) :
    (∀ c ∈ l1, c.ID ≠ item.ID) ∧ (∀ c ∈ l2, c.ID ≠ item.ID) ∧
      ((l1 ++ l2).map (fun v => v.ID)).Nodup := by
  rw [List.map_append, List.map_cons, List.nodup_append] at hnd
  obtain ⟨hn1, hn2, hdis⟩ := hnd
  rw [List.nodup_cons] at hn2
  refine ⟨fun c hc heq => ?_, fun c hc heq => ?_, ?_⟩
  · exact hdis (List.mem_map.mpr ⟨c, hc, rfl⟩) (by rw [heq]; simp)
  · exact hn2.1 (List.mem_map.mpr ⟨c, hc, heq⟩)
  · rw [List.map_append, List.nodup_append]
    exact ⟨hn1, hn2.2, fun x hx1 hx2 => hdis hx1 (List.mem_cons_of_mem _ hx2)⟩

/-- C2: when the loaded IDs are pairwise distinct, the route id parses to the
ID of an item of the list (the list is `l1`, then `item`, then `l2`) and the
store removal succeeds, `HandleRemove` returns and the response list is `l1`
followed by `l2`: that one item is gone and the others keep their order. The
one store call is the removal of that item. -/
theorem HandleRemove_existing (ctx : Ctx) (v : Int) (l1 l2 : List SubredditWatchItem)
    (item : SubredditWatchItem)
    (hnd : (ctx.currentConfig.map (fun c => c.ID)).Nodup)
    (hparse : ParseInt32 ctx.itemParam = .ok v)
    (hcfg : ctx.currentConfig = l1 ++ item :: l2) (hid : item.ID = v)
    (hrem : ctx.client.Remove item = none) :
    ∃ r, HandleRemove ctx = some r ∧ r.RedditConfig = l1 ++ l2 ∧
      r.storeOps = [StoreOp.remove item] := by
  rw [hcfg] at hnd
  obtain ⟨h1, h2, _⟩ := nodup_ids_split hnd
  rw [hid] at h1 h2
  exact ⟨_, HandleRemove_success ctx v l1 l2 item hparse hcfg hid h1 h2 hrem, rfl, rfl⟩

theorem HandleRemove_existing_witness :
    ∃ r, HandleRemove (request scenarioList default "3") = some r ∧
      r.RedditConfig = [⟨"funny", "g", "c0", 1⟩] ++ [] ∧
      r.storeOps = [StoreOp.remove ⟨"pics", "g", "c0", 3⟩] :=
  HandleRemove_existing (request scenarioList default "3") 3 [⟨"funny", "g", "c0", 1⟩] []
    ⟨"pics", "g", "c0", 3⟩ (by decide) rfl rfl rfl rfl

/-- C10: the removal loop is not safe on repeated IDs. On the IDs 1, 2, 1 with
route id 1 the loop matches at every index (the cells shift under the range
clause), and the third match slices `currentConfig[3:]` on a slice of length 1:
the handler panics. It panics on the IDs 1, 1 as well. On the IDs 1, 1, 2 the
loop skips the second item and the response list still holds an item with
ID 1. -/
theorem HandleRemove_repeated_ids :
    removeStep 1 ⟨[⟨"a", "g", "c0", 1⟩, ⟨"b", "g", "c0", 2⟩, ⟨"c", "g", "c0", 1⟩], 3⟩ 0 =
      some ⟨[⟨"b", "g", "c0", 2⟩, ⟨"c", "g", "c0", 1⟩, ⟨"c", "g", "c0", 1⟩], 2⟩ ∧
    removeStep 1 ⟨[⟨"b", "g", "c0", 2⟩, ⟨"c", "g", "c0", 1⟩, ⟨"c", "g", "c0", 1⟩], 2⟩ 1 =
      some ⟨[⟨"b", "g", "c0", 2⟩, ⟨"c", "g", "c0", 1⟩, ⟨"c", "g", "c0", 1⟩], 1⟩ ∧
    removeStep 1 ⟨[⟨"b", "g", "c0", 2⟩, ⟨"c", "g", "c0", 1⟩, ⟨"c", "g", "c0", 1⟩], 1⟩ 2 =
      none ∧
    HandleRemove (request [⟨"a", "g", "c0", 1⟩, ⟨"b", "g", "c0", 2⟩, ⟨"c", "g", "c0", 1⟩]
      default "1") = none ∧
    HandleRemove (request [⟨"a", "g", "c0", 1⟩, ⟨"b", "g", "c0", 1⟩] default "1") = none ∧
    (HandleRemove (request [⟨"a", "g", "c0", 1⟩, ⟨"b", "g", "c0", 1⟩, ⟨"c", "g", "c0", 2⟩]
      default "1")).map (fun r => r.RedditConfig) =
        some [⟨"b", "g", "c0", 1⟩, ⟨"c", "g", "c0", 2⟩] := by
  refine ⟨rfl, rfl, rfl, rfl, rfl, rfl⟩

/-! ## Distinct IDs -/

theorem map_ID_set (l : List SubredditWatchItem) (k : Nat) (item x : SubredditWatchItem)
    (hget : l.get? k = some item) (hx : x.ID = item.ID) :
    (l.set k x).map (fun v => v.ID) = l.map (fun v => v.ID) := by
  induction l generalizing k with
  | nil => rfl
  | cons c rest ih =>
    cases k with
    | zero =>
      simp only [List.get?_cons_zero, Option.some.injEq] at hget
      subst hget
      simp [hx]
    | succ j =>
      simp only [List.get?_cons_succ] at hget
      simp [ih j hget]

theorem HandleModify_config (u : CaseTables) (ctx : Ctx) :
    (HandleModify u ctx).RedditConfig = ctx.currentConfig ∨
    ∃ k item x, ctx.currentConfig.get? k = some item ∧ x.ID = item.ID ∧
      (HandleModify u ctx).RedditConfig = ctx.currentConfig.set k x := by
  cases hok : ctx.formOk with
  | false =>
    left
    simp only [HandleModify, hok]
    rfl
  | true =>
    cases hfind : FindWatchItem ctx.currentConfig ctx.form.ID with
    | none =>
      left
      simp only [HandleModify, hok, hfind]
      rfl
    | some p =>
      obtain ⟨k, item⟩ := p
      obtain ⟨hget, _⟩ := FindWatchItem_some hfind
      right
      cases heq : EqualFold u (TrimSpace ctx.form.Subreddit) item.Sub with
      | true =>
        refine ⟨k, item, ⟨item.Sub, item.Guild, ctx.form.Channel, item.ID⟩, hget, rfl, ?_⟩
        simp only [HandleModify, hok, hfind, heq]
        cases ctx.client.Set ⟨item.Sub, item.Guild, ctx.form.Channel, item.ID⟩ <;> rfl
      | false =>
        cases hrem : ctx.client.Remove ⟨item.Sub, item.Guild, ctx.form.Channel, item.ID⟩ with
        | some e =>
          refine ⟨k, item, ⟨item.Sub, item.Guild, ctx.form.Channel, item.ID⟩, hget, rfl, ?_⟩
          simp only [HandleModify, hok, hfind, heq, hrem]
          rfl
        | none =>
          refine ⟨k, item, ⟨ToLower u ctx.formSubreddit, item.Guild, ctx.form.Channel, item.ID⟩,
            hget, rfl, ?_⟩
          simp only [HandleModify, hok, hfind, heq, hrem]
          cases ctx.client.Set
            ⟨ToLower u ctx.formSubreddit, item.Guild, ctx.form.Channel, item.ID⟩ <;> rfl

theorem HandleModify_ids (u : CaseTables) (ctx : Ctx) :
    (HandleModify u ctx).RedditConfig.map (fun v => v.ID) =
      ctx.currentConfig.map (fun v => v.ID) := by
  rcases HandleModify_config u ctx with h | ⟨k, item, x, hget, hx, h⟩
  · rw [h]
  · rw [h]
    exact map_ID_set _ _ item x hget hx

theorem HandleNew_config (ctx : Ctx) :
    (HandleNew ctx).RedditConfig = ctx.currentConfig ∨
      (HandleNew ctx).RedditConfig = ctx.currentConfig ++ [newWatchItem ctx] := by
  cases hok : ctx.formOk with
  | false =>
    left
    simp only [HandleNew, hok]
    rfl
  | true =>
    by_cases hlen : ctx.currentConfig.length > 24
    · left
      simp only [HandleNew, hok, hlen]
      rfl
    · cases hset : ctx.client.Set (newWatchItem ctx) with
      | none =>
        right
        simp only [HandleNew, hok, hlen, hset]
        rfl
      | some e =>
        left
        simp only [HandleNew, hok, hlen, hset]
        rfl

theorem HandleRemove_config (ctx : Ctx)
    (hnd : (ctx.currentConfig.map (fun c => c.ID)).Nodup) :
    ∃ r, HandleRemove ctx = some r ∧ r.RedditConfig.Sublist ctx.currentConfig := by
  cases hparse : ParseInt32 ctx.itemParam with
  | error e => exact ⟨_, by simp only [HandleRemove, hparse]; rfl, List.Sublist.refl _⟩
  | ok v =>
    cases hfind : FindWatchItem ctx.currentConfig v with
    | none => exact ⟨_, by simp only [HandleRemove, hparse, hfind]; rfl, List.Sublist.refl _⟩
    | some p =>
      obtain ⟨k, item⟩ := p
      cases hrem : ctx.client.Remove item with
      | some e =>
        exact ⟨_, by simp only [HandleRemove, hparse, hfind, hrem]; rfl, List.Sublist.refl _⟩
      | none =>
        obtain ⟨l1, l2, hcfg, _, hid, hl1⟩ := FindWatchItem_split hfind
        rw [hcfg] at hnd
        obtain ⟨_, h2, _⟩ := nodup_ids_split hnd
        rw [hid] at h2
        refine ⟨_, HandleRemove_success ctx v l1 l2 item hparse hcfg hid hl1 h2 hrem, ?_⟩
        rw [hcfg]
        exact List.Sublist.append (List.Sublist.refl _) (List.sublist_cons_self _ _)

/-- C8 (as amended): when the loaded IDs are pairwise distinct, the response
list of `HandleModify` and the response list of `HandleRemove` (which returns)
have pairwise distinct IDs, whatever the form, the route id and the store
outcomes; so has the response list of `HandleNew` when no loaded ID is the
largest `int`, and then the ID built by create is above every loaded ID. -/
theorem ids_stay_distinct (u : CaseTables) (ctx : Ctx)
    (hnd : (ctx.currentConfig.map (fun c => c.ID)).Nodup) :
    ((∀ v ∈ ctx.currentConfig, v.ID < maxInt) →
      ((HandleNew ctx).RedditConfig.map (fun c => c.ID)).Nodup ∧
      ∀ v ∈ ctx.currentConfig, v.ID < (newWatchItem ctx).ID) ∧
    ((HandleModify u ctx).RedditConfig.map (fun c => c.ID)).Nodup ∧
    ∃ r, HandleRemove ctx = some r ∧ (r.RedditConfig.map (fun c => c.ID)).Nodup := by
  refine ⟨fun hmax => ?_, ?_, ?_⟩
  · have hid := newWatchItem_ID ctx hmax
    obtain ⟨_, h1, _⟩ := highestID_bounds ctx.currentConfig
    have hlt : ∀ v ∈ ctx.currentConfig, v.ID < (newWatchItem ctx).ID := by
      intro v hv
      have := h1 v hv
      omega
    refine ⟨?_, hlt⟩
    rcases HandleNew_config ctx with h | h
    · rw [h]
      exact hnd
    · rw [h, List.map_append, List.nodup_append]
      refine ⟨hnd, by simp, ?_⟩
      intro x hx1 hx2
      obtain ⟨v, hv, rfl⟩ := List.mem_map.mp hx1
      simp only [List.map_cons, List.map_nil, List.mem_singleton] at hx2
      have := hlt v hv
      omega
  · rw [HandleModify_ids]
    exact hnd
  · obtain ⟨r, hr, hsub⟩ := HandleRemove_config ctx hnd
    exact ⟨r, hr, (hsub.map _).nodup hnd⟩

theorem ids_stay_distinct_witness :
    ((HandleNew (request scenarioList ⟨" gifs ", "c1", 0⟩ "3")).RedditConfig.map
        (fun c => c.ID)).Nodup ∧
    ((HandleModify asciiTables (request scenarioList ⟨" gifs ", "c1", 0⟩ "3")).RedditConfig.map
        (fun c => c.ID)).Nodup ∧
    ∃ r, HandleRemove (request scenarioList ⟨" gifs ", "c1", 0⟩ "3") = some r ∧
      (r.RedditConfig.map (fun c => c.ID)).Nodup :=
  have h := ids_stay_distinct asciiTables (request scenarioList ⟨" gifs ", "c1", 0⟩ "3")
    (by decide)
  ⟨(h.1 (by decide)).1, h.2.1, h.2.2⟩

/-- C8 (as stated) fails for create at the end of the `int` range: the loaded
IDs 9223372036854775807 and -9223372036854775808 are distinct, `highest + 1`
wraps to -9223372036854775808, and the response list of a valid create on a
working store holds that ID twice. -/
theorem HandleNew_wraps_onto_existing_id :
    (([⟨"funny", "g", "c0", 9223372036854775807⟩,
       ⟨"pics", "g", "c0", -9223372036854775808⟩] : List SubredditWatchItem).map
        (fun c => c.ID)).Nodup ∧
    (HandleNew (request [⟨"funny", "g", "c0", 9223372036854775807⟩,
        ⟨"pics", "g", "c0", -9223372036854775808⟩] ⟨"gifs", "c1", 0⟩ "")).RedditConfig =
      [⟨"funny", "g", "c0", 9223372036854775807⟩,
       ⟨"pics", "g", "c0", -9223372036854775808⟩,
       ⟨"gifs", "g", "c1", -9223372036854775808⟩] ∧
    ¬ ((HandleNew (request [⟨"funny", "g", "c0", 9223372036854775807⟩,
        ⟨"pics", "g", "c0", -9223372036854775808⟩] ⟨"gifs", "c1", 0⟩ "")).RedditConfig.map
        (fun c => c.ID)).Nodup := by
  refine ⟨by decide, by decide, by decide⟩

/-! ## Trimmed subreddits -/

theorem trimRunes_head (l : List Char) (c : Char) (h : (trimRunes l).head? = some c) :
    isSpace c = false := by
  have hpre : trimRunes l <+: l.dropWhile isSpace := List.rdropWhile_prefix isSpace (l.dropWhile isSpace)
  obtain ⟨t, ht⟩ := hpre
  have hnot := List.head?_dropWhile_not isSpace l
  cases hr : trimRunes l with
  | nil => simp [hr] at h
  | cons a r =>
    rw [hr] at h ht
    simp only [List.head?_cons, Option.some.injEq] at h
    subst h
    rw [← ht] at hnot
    simpa using hnot

theorem trimRunes_getLast (l : List Char) (c : Char) (h : (trimRunes l).getLast? = some c) :
    isSpace c = false := by
  unfold trimRunes at h
  rw [List.getLast?_reverse] at h
  have hnot := List.head?_dropWhile_not isSpace (l.dropWhile isSpace).reverse
  rw [h] at hnot
  simpa using hnot

theorem TrimSpace_trimmed (s : String) : Trimmed (TrimSpace s) :=
  ⟨trimRunes_head s.data, trimRunes_getLast s.data⟩

theorem HandleNew_keeps_trimmed (ctx : Ctx) (h : ∀ v ∈ ctx.currentConfig, Trimmed v.Sub) :
    (∀ v ∈ (HandleNew ctx).RedditConfig, Trimmed v.Sub) ∧
    (∀ v, StoreOp.set v ∈ (HandleNew ctx).storeOps → Trimmed v.Sub) := by
  have hnew : Trimmed (newWatchItem ctx).Sub := TrimSpace_trimmed _
  constructor
  · rcases HandleNew_config ctx with hc | hc <;> rw [hc]
    · exact h
    · intro v hv
      rcases List.mem_append.mp hv with hv | hv
      · exact h v hv
      · rw [List.mem_singleton.mp hv]
        exact hnew
  · intro v hv
    cases hok : ctx.formOk with
    | false => simp [HandleNew, hok] at hv
    | true =>
      by_cases hlen : ctx.currentConfig.length > 24
      · simp [HandleNew, hok, hlen] at hv
      · cases hset : ctx.client.Set (newWatchItem ctx) <;>
          simp [HandleNew, hok, hlen, hset, CheckErr] at hv <;> rw [hv] <;> exact hnew

/-- C9: `HandleModify` breaks the trimmed-subreddit invariant. On the scenario
list, whose subreddits are trimmed, the valid form with ID 1 and subreddit
`" GIFS "` on a working store makes the handler remove `funny` and then write,
and return at position 0, an item whose subreddit is `" gifs "`: the lower-cased
raw form value, with its surrounding spaces. -/
theorem HandleModify_stores_untrimmed (u : CaseTables) :
    (∀ v ∈ scenarioList, Trimmed v.Sub) ∧
    HandleModify u (request scenarioList ⟨" GIFS ", "c2", 1⟩ "1") =
      { RedditConfig := [⟨" gifs ", "g", "c2", 1⟩, ⟨"pics", "g", "c0", 3⟩]
        alerts := [SucessAlert [.text "Sucessfully updated reddit feed! :D"]]
        storeOps := [StoreOp.remove ⟨"funny", "g", "c2", 1⟩,
                     StoreOp.set ⟨" gifs ", "g", "c2", 1⟩]
        cpLog := ["Modified a feed to /r/ GIFS "] } ∧
    ¬ Trimmed " gifs " := by
  refine ⟨?_, rfl, ?_⟩
  · intro v hv
    simp only [scenarioList, List.mem_cons, List.mem_singleton, List.not_mem_nil, or_false] at hv
    rcases hv with rfl | rfl
    · exact ⟨fun c hc => by cases hc; decide, fun c hc => by cases hc; decide⟩
    · exact ⟨fun c hc => by cases hc; decide, fun c hc => by cases hc; decide⟩
  · intro h
    have := h.1 ' ' rfl
    revert this
    decide

end Reddit
